import Mathlib

/-!
Shallow embedding of the TaskMaster-go storage and service layers.

The filesystem (the `.taskmaster` directory) is modelled as an association
list from file name to file content; writes can be made to fail by listing
the file name in `writeFail`, modelling I/O errors injected by the
environment.  `time.Now()` is modelled by threading an explicit `now : Nat`
argument through each mutating operation.  Go `int64`/`int` values are
modelled as `Int` (none of the verified operations can overflow a 64-bit
counter starting from 1, so no wraparound modelling is needed); Go
`time.Time` values are modelled as `Nat` ticks with `0` as the zero value.
-/

namespace TaskMaster

/-- Model of `models.Task` (internal/models/task.go): the sole persisted entity. -/
structure Task where
  id : Int
  title : String
  description : String
  dueDate : Nat
  priority : Int
  completed : Bool
  progress : Int
  createdAt : Nat
  updatedAt : Nat
deriving Repr, DecidableEq

/-- Content of one file in the `.taskmaster` directory: a JSON-decodable
task record, the JSON counter record (`{"next_id": n}`), a file whose
content fails to decode, or a subdirectory. -/
inductive FileData where
  | taskFile (t : Task)
  | counterFile (nextId : Int)
  | corrupt
  | subdir
deriving Repr, DecidableEq

/-- The error outcomes the Go code distinguishes (by message/kind). -/
inductive Err where
  | notFound (id : Int)
  | decodeError
  | writeError
  | readError
  | validation
deriving Repr, DecidableEq

/-- Model of `storage.FileStorage`: the in-memory `nextID` counter plus the backing
directory.  `writeFail` lists the file names on which `os.WriteFile`
fails. -/
structure FileStorage where
  nextID : Int
  files : List (String × FileData)
  writeFail : List String
deriving Repr, DecidableEq

/-- Name of the counter file (`counter.json`). -/
def counterName : String := "counter.json"

/-- Model of `getTaskFilename`: `fmt.Sprintf("task_%d.json", id)`. -/
def taskFilename (id : Int) : String := "task_" ++ toString id ++ ".json"

/-- Look a file up by name (first match, as in a real directory where
names are unique). -/
def lookupFile : List (String × FileData) → String → Option FileData
  | [], _ => none
  | (n, d) :: rest, name => if n = name then some d else lookupFile rest name

/-- Model of `os.WriteFile`: overwrite the file if present, else create it. -/
def setFile : List (String × FileData) → String → FileData → List (String × FileData)
  | [], name, d => [(name, d)]
  | (n, e) :: rest, name, d =>
    if n = name then (name, d) :: rest else (n, e) :: setFile rest name d

/-- Model of `os.Remove`. -/
def removeFile : List (String × FileData) → String → List (String × FileData)
  | [], _ => []
  | (n, e) :: rest, name =>
    if n = name then removeFile rest name else (n, e) :: removeFile rest name

/-- Model of `strings.HasPrefix`, on the character lists of the strings. -/
def hasPrefixChars : List Char → List Char → Bool
  | [], _ => true
  | _ :: _, [] => false
  | a :: ps, b :: ss => a = b && hasPrefixChars ps ss

/-- Model of `strings.HasSuffix`, on the character lists of the strings. -/
def hasSuffixChars (p s : List Char) : Bool := hasPrefixChars p.reverse s.reverse

instance {ε α : Type} [DecidableEq ε] [DecidableEq α] : DecidableEq (Except ε α) :=
  fun x y =>
    match x, y with
    | .ok a, .ok b => if h : a = b then isTrue (by rw [h]) else isFalse (by simp [h])
    | .error a, .error b => if h : a = b then isTrue (by rw [h]) else isFalse (by simp [h])
    | .ok _, .error _ => isFalse (by simp)
    | .error _, .ok _ => isFalse (by simp)

/-- Decimal digits accumulator for `strconv.ParseInt`. -/
def digitsVal : List Char → Nat → Option Nat
  | [], acc => some acc
  | c :: cs, acc =>
    if c.isDigit then digitsVal cs (acc * 10 + (c.toNat - 48)) else none

/-- At least one decimal digit, all characters digits. -/
def parseDigits : List Char → Option Nat
  | [] => none
  | l => digitsVal l 0

/-- Model of `strconv.ParseInt(s, 10, 64)` on the characters of the string: optional
sign, one or more decimal digits, result within the `int64` range. -/
def parseInt64 : List Char → Option Int
  | '+' :: rest =>
    (parseDigits rest).bind (fun n => if n ≤ 2 ^ 63 - 1 then some (n : Int) else none)
  | '-' :: rest =>
    (parseDigits rest).bind (fun n => if n ≤ 2 ^ 63 then some (-(n : Int)) else none)
  | l =>
    (parseDigits l).bind (fun n => if n ≤ 2 ^ 63 - 1 then some (n : Int) else none)

/-- The characters of `"task_"`. -/
def taskNamePre : List Char := ['t', 'a', 's', 'k', '_']

/-- The characters of `".json"`. -/
def taskNameSuf : List Char := ['.', 'j', 's', 'o', 'n']

/-- The id segment of a task-record file name: `strings.TrimPrefix` of
`task_` followed by `strings.TrimSuffix` of `.json`, on the characters of a
name that has been checked to carry both the prefix and the suffix. -/
def idSegment (n : String) : List Char :=
  (n.data.drop 5).take (n.data.length - 10)

/-- Model of `FileStorage.saveCounter`: marshal `{"next_id": nextID}` and write
`counter.json`. -/
def FileStorage.saveCounter (s : FileStorage) : Except Err FileStorage :=
  if counterName ∈ s.writeFail then .error .writeError
  else .ok { s with files := setFile s.files counterName (.counterFile s.nextID) }

/-- Model of `FileStorage.saveTask`: marshal the task and write `task_<id>.json`. -/
def FileStorage.saveTask (s : FileStorage) (task : Task) : Except Err FileStorage :=
  if taskFilename task.id ∈ s.writeFail then .error .writeError
  else .ok { s with files := setFile s.files (taskFilename task.id) (.taskFile task) }

/-- Model of `FileStorage.GetTask`: read and decode `task_<id>.json`; a missing
file is a not-found error, undecodable content a decode error, and reading
a directory a read error. -/
def FileStorage.GetTask (s : FileStorage) (id : Int) : Except Err Task :=
  match lookupFile s.files (taskFilename id) with
  | none => .error (.notFound id)
  | some (.taskFile t) => .ok t
  | some (.counterFile _) => .error .decodeError
  | some .corrupt => .error .decodeError
  | some .subdir => .error .readError

/-- Model of `FileStorage.Init`: read `counter.json`; if absent, set the counter to
1 and persist it; if unreadable or unparsable, fail. -/
def FileStorage.Init (s : FileStorage) : FileStorage × Except Err Unit :=
  match lookupFile s.files counterName with
  | none =>
    let s := { s with nextID := 1 }
    match s.saveCounter with
    | .error e => (s, .error e)
    | .ok s1 => (s1, .ok ())
  | some (.counterFile n) => ({ s with nextID := n }, .ok ())
  | some _ => (s, .error .decodeError)

/-- Model of `FileStorage.CreateTask`: assign `task.ID = nextID`, advance the
counter, stamp `CreatedAt = UpdatedAt = now`, persist the counter, then
persist the record.  The mutated store state is returned even on error
(Go mutates the receiver in place). -/
def FileStorage.CreateTask (s : FileStorage) (task : Task) (now : Nat) :
    FileStorage × Except Err Task :=
  let task := { task with id := s.nextID, createdAt := now, updatedAt := now }
  let s := { s with nextID := s.nextID + 1 }
  match s.saveCounter with
  | .error e => (s, .error e)
  | .ok s1 =>
    match s1.saveTask task with
    | .error e => (s1, .error e)
    | .ok s2 => (s2, .ok task)

/-- Model of `FileStorage.UpdateTask`: require the record to exist, re-stamp
`UpdatedAt`, overwrite the record. -/
def FileStorage.UpdateTask (s : FileStorage) (task : Task) (now : Nat) :
    FileStorage × Except Err Task :=
  match s.GetTask task.id with
  | .error e => (s, .error e)
  | .ok _ =>
    let task := { task with updatedAt := now }
    match s.saveTask task with
    | .error e => (s, .error e)
    | .ok s1 => (s1, .ok task)

/-- Model of `FileStorage.DeleteTask`: stat the file (not-found error if absent),
then remove it. -/
def FileStorage.DeleteTask (s : FileStorage) (id : Int) :
    FileStorage × Except Err Unit :=
  match lookupFile s.files (taskFilename id) with
  | none => (s, .error (.notFound id))
  | some _ => ({ s with files := removeFile s.files (taskFilename id) }, .ok ())

/-- Model of `FileStorage.CompleteTask`: load, set `Completed = true`,
`Progress = 100`, re-stamp `UpdatedAt`, persist. -/
def FileStorage.CompleteTask (s : FileStorage) (id : Int) (now : Nat) :
    FileStorage × Except Err Unit :=
  match s.GetTask id with
  | .error e => (s, .error e)
  | .ok task =>
    let task := { task with completed := true, progress := 100, updatedAt := now }
    match s.saveTask task with
    | .error e => (s, .error e)
    | .ok s1 => (s1, .ok ())

/-- Model of `FileStorage.UpdateTaskProgress`: load, set `Progress`, re-stamp
`UpdatedAt`, set `Completed = true` when the new progress is 100,
persist. -/
def FileStorage.UpdateTaskProgress (s : FileStorage) (id : Int) (progress : Int)
    (now : Nat) : FileStorage × Except Err Unit :=
  match s.GetTask id with
  | .error e => (s, .error e)
  | .ok task =>
    let task := { task with
                  progress := progress, updatedAt := now,
                  completed := if progress = 100 then true else task.completed }
    match s.saveTask task with
    | .error e => (s, .error e)
    | .ok s1 => (s1, .ok ())

/-- One directory entry of `GetAllTasks`'s loop: skip directories and
names not of the form `task_*.json`, parse the ID segment (skip on
failure), then load via `GetTask` (skip on failure). -/
def dirEntryTask (s : FileStorage) (e : String × FileData) : Option Task :=
  if e.2 = FileData.subdir then none
  else if ¬ (hasPrefixChars taskNamePre e.1.data) then none
  else if ¬ (hasSuffixChars taskNameSuf e.1.data) then none
  else
    match parseInt64 (idSegment e.1) with
    | none => none
    | some id =>
      match s.GetTask id with
      | .ok t => some t
      | .error _ => none

/-- Model of `FileStorage.GetAllTasks`: scan the directory, collect the loadable
task records, sort by ascending ID (`sort.Slice` with `ID <`, modelled by
insertion sort on `ID ≤`). -/
def FileStorage.GetAllTasks (s : FileStorage) : List Task :=
  List.insertionSort (fun a b => a.id ≤ b.id) (s.files.filterMap (dirEntryTask s))

/-- Model of `App.CreateTask`: reject an empty title, then delegate to the store
with progress 0 and completed false. -/
def App.CreateTask (s : FileStorage) (title desc : String) (dueDate : Nat)
    (priority : Int) (now : Nat) : FileStorage × Except Err Task :=
  if title = "" then (s, .error .validation)
  else s.CreateTask { id := 0, title := title, description := desc,
                      dueDate := dueDate, priority := priority, completed := false,
                      progress := 0, createdAt := 0, updatedAt := 0 } now

/-- Model of `App.UpdateTaskProgress`: reject progress outside `[0, 100]`, then
delegate to the store. -/
def App.UpdateTaskProgress (s : FileStorage) (id : Int) (progress : Int)
    (now : Nat) : FileStorage × Except Err Unit :=
  if progress < 0 ∨ progress > 100 then (s, .error .validation)
  else s.UpdateTaskProgress id progress now

/-- Model of `App.UpdateTaskDetails`: fetch the task (propagating errors),
overwrite title, description, due date and priority, then delegate to
`UpdateTask`. -/
def App.UpdateTaskDetails (s : FileStorage) (id : Int) (title desc : String)
    (dueDate : Nat) (priority : Int) (now : Nat) : FileStorage × Except Err Task :=
  match s.GetTask id with
  | .error e => (s, .error e)
  | .ok task =>
    s.UpdateTask { task with
                   title := title, description := desc,
                   dueDate := dueDate, priority := priority } now

/-- Model of `App.CompleteTask`: thin pass-through to the store. -/
def App.CompleteTask (s : FileStorage) (id : Int) (now : Nat) :
    FileStorage × Except Err Unit :=
  s.CompleteTask id now

/-- Model of `App.DeleteTask`: thin pass-through to the store. -/
def App.DeleteTask (s : FileStorage) (id : Int) : FileStorage × Except Err Unit :=
  s.DeleteTask id

/-! ### Lemmas about the filesystem model -/

theorem lookupFile_setFile_self (files : List (String × FileData)) (n : String)
    (d : FileData) : lookupFile (setFile files n d) n = some d := by
  induction files with
  | nil => simp [setFile, lookupFile]
  | cons p rest ih =>
    obtain ⟨a, b⟩ := p
    by_cases h : a = n
    · simp [setFile, h, lookupFile]
    · simp [setFile, h, lookupFile, ih]

theorem lookupFile_setFile_ne (files : List (String × FileData)) {n m : String}
    (h : n ≠ m) (d : FileData) :
    lookupFile (setFile files n d) m = lookupFile files m := by
  induction files with
  | nil => simp [setFile, lookupFile, h]
  | cons p rest ih =>
    obtain ⟨a, b⟩ := p
    by_cases ha : a = n
    · have ham : a ≠ m := fun hc => h (ha.symm.trans hc)
      have hnm : ¬ (n = m) := h
      simp [setFile, lookupFile, ha, ham, hnm]
    · by_cases hm : a = m <;> simp [setFile, lookupFile, ha, hm, ih, Ne.symm h]

theorem lookupFile_removeFile_self (files : List (String × FileData)) (n : String) :
    lookupFile (removeFile files n) n = none := by
  induction files with
  | nil => simp [removeFile, lookupFile]
  | cons p rest ih =>
    obtain ⟨a, b⟩ := p
    by_cases h : a = n <;> simp [removeFile, lookupFile, h, ih]

theorem lookupFile_eq_of_mem {files : List (String × FileData)}
    (hnd : (files.map Prod.fst).Nodup) {n : String} {d : FileData}
    (hm : (n, d) ∈ files) : lookupFile files n = some d := by
  induction files with
  | nil => simp at hm
  | cons p rest ih =>
    obtain ⟨a, b⟩ := p
    simp only [List.map_cons, List.nodup_cons] at hnd
    rcases List.mem_cons.mp hm with heq | hmem
    · obtain ⟨rfl, rfl⟩ := Prod.mk.injEq .. ▸ heq
      simp [lookupFile]
    · have hne : a ≠ n := by
        intro hc
        subst hc
        exact hnd.1 (List.mem_map.mpr ⟨(a, d), hmem, rfl⟩)
      simp [lookupFile, hne, ih hnd.2 hmem]

theorem taskFilename_ne_counterName (i : Int) : taskFilename i ≠ counterName := by
  intro h
  have hd := congrArg String.data h
  rw [taskFilename, counterName, String.data_append, String.data_append] at hd
  have h1 : "task_".data = ['t', 'a', 's', 'k', '_'] := rfl
  have h2 : "counter.json".data = ['c', 'o', 'u', 'n', 't', 'e', 'r', '.', 'j', 's', 'o', 'n'] := rfl
  rw [h1, h2] at hd
  simp at hd

/-! ### Equations for the store operations on the success paths -/

theorem updateTaskProgress_eq (s : FileStorage) (id p : Int) (now : Nat) (t : Task)
    (hget : s.GetTask id = .ok t) (hid : t.id = id)
    (hw : taskFilename id ∉ s.writeFail) :
    s.UpdateTaskProgress id p now =
      ({ s with files := setFile s.files (taskFilename id)
                           (.taskFile { t with
                                        progress := p, updatedAt := now,
                                        completed := if p = 100 then true
                                                     else t.completed }) },
       .ok ()) := by
  simp [FileStorage.UpdateTaskProgress, hget, FileStorage.saveTask, hid, hw]

theorem completeTask_eq (s : FileStorage) (id : Int) (now : Nat) (t : Task)
    (hget : s.GetTask id = .ok t) (hid : t.id = id)
    (hw : taskFilename id ∉ s.writeFail) :
    s.CompleteTask id now =
      ({ s with files := setFile s.files (taskFilename id)
                           (.taskFile { t with
                                        completed := true, progress := 100,
                                        updatedAt := now }) },
       .ok ()) := by
  simp [FileStorage.CompleteTask, hget, FileStorage.saveTask, hid, hw]

theorem createTask_eq (s : FileStorage) (t : Task) (now : Nat)
    (hcw : counterName ∉ s.writeFail) (htw : taskFilename s.nextID ∉ s.writeFail) :
    s.CreateTask t now =
      ({ nextID := s.nextID + 1,
         files := setFile (setFile s.files counterName (.counterFile (s.nextID + 1)))
           (taskFilename s.nextID)
           (.taskFile { t with id := s.nextID, createdAt := now, updatedAt := now }),
         writeFail := s.writeFail },
       .ok { t with id := s.nextID, createdAt := now, updatedAt := now }) := by
  simp [FileStorage.CreateTask, FileStorage.saveCounter, FileStorage.saveTask, hcw, htw]

theorem updateTask_eq (s : FileStorage) (task : Task) (now : Nat) (t0 : Task)
    (hget : s.GetTask task.id = .ok t0)
    (hw : taskFilename task.id ∉ s.writeFail) :
    s.UpdateTask task now =
      ({ s with files := setFile s.files (taskFilename task.id)
                           (.taskFile { task with updatedAt := now }) },
       .ok { task with updatedAt := now }) := by
  simp [FileStorage.UpdateTask, hget, FileStorage.saveTask, hw]

/-! ### Concrete fixtures used by the witnesses -/

/-- A stored task used by witnesses. -/
def sampleTask : Task :=
  { id := 1, title := "Write report", description := "d", dueDate := 30,
    priority := 2, completed := false, progress := 40, createdAt := 5, updatedAt := 6 }

/-- A store holding `sampleTask` under `task_1.json`, counter at 2. -/
def sampleFS : FileStorage :=
  { nextID := 2,
    files := [(counterName, .counterFile 2), (taskFilename 1, .taskFile sampleTask)],
    writeFail := [] }

/-! ### C2 -/

/-- C2: for a stored task whose record id matches the requested id and whose
progress is in range, `UpdateTaskProgress(id, 100)` succeeds and leaves the
stored record completed with progress 100, and `CompleteTask(id)` succeeds and
leaves the stored record completed with progress 100; neither lowers the
stored progress. -/
theorem progress100_forces_completed (s : FileStorage) (id : Int) (now : Nat) (t : Task)
    (hget : s.GetTask id = .ok t) (hid : t.id = id) (hp : t.progress ≤ 100)
    (hw : taskFilename id ∉ s.writeFail) :
    (∃ t', (s.UpdateTaskProgress id 100 now).1.GetTask id = .ok t' ∧
      (s.UpdateTaskProgress id 100 now).2 = .ok () ∧
      t'.completed = true ∧ t'.progress = 100 ∧ t.progress ≤ t'.progress) ∧
    (∃ t', (s.CompleteTask id now).1.GetTask id = .ok t' ∧
      (s.CompleteTask id now).2 = .ok () ∧
      t'.completed = true ∧ t'.progress = 100 ∧ t.progress ≤ t'.progress) := by
  rw [updateTaskProgress_eq s id 100 now t hget hid hw,
    completeTask_eq s id now t hget hid hw]
  constructor
  · refine ⟨{ t with progress := 100, updatedAt := now, completed := true },
      ?_, rfl, by simp, by simp, by simpa using hp⟩
    simp [FileStorage.GetTask, lookupFile_setFile_self]
  · refine ⟨{ t with completed := true, progress := 100, updatedAt := now },
      ?_, rfl, by simp, by simp, by simpa using hp⟩
    simp [FileStorage.GetTask, lookupFile_setFile_self]

/-- Witness for C2 at a concrete store. -/
theorem progress100_forces_completed_witness :
    (∃ t', (sampleFS.UpdateTaskProgress 1 100 7).1.GetTask 1 = .ok t' ∧
      (sampleFS.UpdateTaskProgress 1 100 7).2 = .ok () ∧
      t'.completed = true ∧ t'.progress = 100 ∧ sampleTask.progress ≤ t'.progress) ∧
    (∃ t', (sampleFS.CompleteTask 1 7).1.GetTask 1 = .ok t' ∧
      (sampleFS.CompleteTask 1 7).2 = .ok () ∧
      t'.completed = true ∧ t'.progress = 100 ∧ sampleTask.progress ≤ t'.progress) :=
  progress100_forces_completed sampleFS 1 7 sampleTask (by decide) (by decide)
    (by decide) (by decide)

/-! ### C3 -/

/-- C3: for an existing task, the service-level UpdateTaskProgress accepts any
progress in [0, 100] and stores exactly that value, and rejects any progress
outside [0, 100] with a validation error, leaving the store untouched (the
result state is the input state, so no store operation happened). -/
theorem appUpdateProgress_validated (s : FileStorage) (id p : Int) (now : Nat)
    (t : Task) (hget : s.GetTask id = .ok t) (hid : t.id = id)
    (hw : taskFilename id ∉ s.writeFail) :
    (0 ≤ p → p ≤ 100 →
      (App.UpdateTaskProgress s id p now).2 = .ok () ∧
      ∃ t', (App.UpdateTaskProgress s id p now).1.GetTask id = .ok t' ∧
        t'.progress = p) ∧
    (p < 0 ∨ 100 < p → App.UpdateTaskProgress s id p now = (s, .error .validation)) := by
  constructor
  · intro h0 h100
    have hcond : ¬ (p < 0 ∨ p > 100) := by omega
    rw [App.UpdateTaskProgress, if_neg hcond,
      updateTaskProgress_eq s id p now t hget hid hw]
    refine ⟨rfl, { t with
                   progress := p, updatedAt := now,
                   completed := if p = 100 then true else t.completed }, ?_, by simp⟩
    simp [FileStorage.GetTask, lookupFile_setFile_self]
  · intro hbad
    have hcond : p < 0 ∨ p > 100 := by omega
    rw [App.UpdateTaskProgress, if_pos hcond]

/-- Witness for C3: in-range progress 55 is stored, progress 101 is rejected. -/
theorem appUpdateProgress_validated_witness :
    ((App.UpdateTaskProgress sampleFS 1 55 7).2 = .ok () ∧
      ∃ t', (App.UpdateTaskProgress sampleFS 1 55 7).1.GetTask 1 = .ok t' ∧
        t'.progress = 55) ∧
    App.UpdateTaskProgress sampleFS 1 101 7 = (sampleFS, .error .validation) :=
  ⟨(appUpdateProgress_validated sampleFS 1 55 7 sampleTask (by decide) (by decide)
      (by decide)).1 (by decide) (by decide),
   (appUpdateProgress_validated sampleFS 1 101 7 sampleTask (by decide) (by decide)
      (by decide)).2 (by decide)⟩

/-! ### C5 -/

/-- C5: when the counter write succeeds but the task-record write fails,
CreateTask returns a write error, the in-memory counter has still advanced (no
rollback), the advanced counter value is already persisted (the counter is
written before the record), and the record file was never written. -/
theorem createTask_counter_no_rollback (s : FileStorage) (t : Task) (now : Nat)
    (hcw : counterName ∉ s.writeFail) (htw : taskFilename s.nextID ∈ s.writeFail) :
    (s.CreateTask t now).2 = .error .writeError ∧
    (s.CreateTask t now).1.nextID = s.nextID + 1 ∧
    lookupFile (s.CreateTask t now).1.files counterName =
      some (.counterFile (s.nextID + 1)) ∧
    lookupFile (s.CreateTask t now).1.files (taskFilename s.nextID) =
      lookupFile s.files (taskFilename s.nextID) := by
  have hres : s.CreateTask t now =
      ({ nextID := s.nextID + 1,
         files := setFile s.files counterName (.counterFile (s.nextID + 1)),
         writeFail := s.writeFail }, .error .writeError) := by
    simp [FileStorage.CreateTask, FileStorage.saveCounter, FileStorage.saveTask, hcw, htw]
  rw [hres]
  refine ⟨rfl, rfl, ?_, ?_⟩
  · simp [lookupFile_setFile_self]
  · exact lookupFile_setFile_ne _ (taskFilename_ne_counterName s.nextID).symm _

/-- Store with a failing write on the next task-record file. -/
def failFS : FileStorage :=
  { nextID := 2, files := [(counterName, .counterFile 2)],
    writeFail := [taskFilename 2] }

/-- Witness for C5 at a concrete store whose task-record write fails. -/
theorem createTask_counter_no_rollback_witness :
    (failFS.CreateTask sampleTask 7).2 = .error .writeError ∧
    (failFS.CreateTask sampleTask 7).1.nextID = failFS.nextID + 1 ∧
    lookupFile (failFS.CreateTask sampleTask 7).1.files counterName =
      some (.counterFile (failFS.nextID + 1)) ∧
    lookupFile (failFS.CreateTask sampleTask 7).1.files (taskFilename failFS.nextID) =
      lookupFile failFS.files (taskFilename failFS.nextID) :=
  createTask_counter_no_rollback failFS sampleTask 7 (by decide) (by decide)

/-! ### C6 -/

/-- C6: a successful CreateTask followed by GetTask on the returned id yields a
record equal to the input in all caller-supplied fields (title, description,
due date, priority, progress, completed). -/
theorem createTask_roundtrip (s : FileStorage) (t : Task) (now : Nat) (task' : Task)
    (hok : (s.CreateTask t now).2 = .ok task') :
    (s.CreateTask t now).1.GetTask task'.id = .ok task' ∧
    task'.title = t.title ∧ task'.description = t.description ∧
    task'.dueDate = t.dueDate ∧ task'.priority = t.priority ∧
    task'.progress = t.progress ∧ task'.completed = t.completed := by
  by_cases hcw : counterName ∈ s.writeFail
  · simp [FileStorage.CreateTask, FileStorage.saveCounter, hcw] at hok
  · by_cases htw : taskFilename s.nextID ∈ s.writeFail
    · simp [FileStorage.CreateTask, FileStorage.saveCounter, FileStorage.saveTask,
        hcw, htw] at hok
    · rw [createTask_eq s t now hcw htw] at hok ⊢
      simp only [Except.ok.injEq] at hok
      subst hok
      refine ⟨?_, rfl, rfl, rfl, rfl, rfl, rfl⟩
      simp [FileStorage.GetTask, lookupFile_setFile_self]

/-- The record CreateTask stores for `sampleTask` on `sampleFS` at time 7. -/
def createdSample : Task :=
  { id := 2, title := "Write report", description := "d", dueDate := 30,
    priority := 2, completed := false, progress := 40, createdAt := 7, updatedAt := 7 }

/-- Witness for C6 at a concrete store. -/
theorem createTask_roundtrip_witness :
    (sampleFS.CreateTask sampleTask 7).1.GetTask createdSample.id = .ok createdSample ∧
    createdSample.title = sampleTask.title ∧
    createdSample.description = sampleTask.description ∧
    createdSample.dueDate = sampleTask.dueDate ∧
    createdSample.priority = sampleTask.priority ∧
    createdSample.progress = sampleTask.progress ∧
    createdSample.completed = sampleTask.completed :=
  createTask_roundtrip sampleFS sampleTask 7 createdSample (by decide)

/-! ### C7 -/

/-- Effect of a successful `App.UpdateTaskDetails` on the result and on the
stored record. -/
theorem appUpdateTaskDetails_getTask (s : FileStorage) (id : Int)
    (title desc : String) (due : Nat) (prio : Int) (now : Nat) (t : Task)
    (hget : s.GetTask id = .ok t) (hid : t.id = id)
    (hw : taskFilename id ∉ s.writeFail) :
    (App.UpdateTaskDetails s id title desc due prio now).2 =
      .ok { t with
            title := title, description := desc, dueDate := due,
            priority := prio, updatedAt := now } ∧
    (App.UpdateTaskDetails s id title desc due prio now).1.GetTask id =
      .ok { t with
            title := title, description := desc, dueDate := due,
            priority := prio, updatedAt := now } := by
  have hmod : s.GetTask ({ t with
      title := title, description := desc,
      dueDate := due, priority := prio } : Task).id = .ok t := by
    simpa [hid] using hget
  have hw' : taskFilename ({ t with
      title := title, description := desc,
      dueDate := due, priority := prio } : Task).id ∉ s.writeFail := by
    simpa [hid] using hw
  simp only [App.UpdateTaskDetails, hget]
  rw [updateTask_eq s _ now t hmod hw']
  refine ⟨by simp, ?_⟩
  simp [FileStorage.GetTask, hid, lookupFile_setFile_self]

/-- C7: for an existing task, UpdateTaskDetails replaces title, description,
due date and priority unconditionally (including an empty description),
re-stamps updated_at, and leaves id, completed, progress and created_at as they
were (the stored record is built from the old one, overriding only those five
fields); for a nonexistent id it fails with a not-found error and the state is
unchanged. -/
theorem updateTaskDetails_replaces_fields (s : FileStorage) (id : Int)
    (title desc : String) (due : Nat) (prio : Int) (now : Nat) :
    (∀ t, s.GetTask id = .ok t → t.id = id → taskFilename id ∉ s.writeFail →
      (App.UpdateTaskDetails s id title desc due prio now).2 =
        .ok { t with
              title := title, description := desc, dueDate := due,
              priority := prio, updatedAt := now } ∧
      (App.UpdateTaskDetails s id title desc due prio now).1.GetTask id =
        .ok { t with
              title := title, description := desc, dueDate := due,
              priority := prio, updatedAt := now }) ∧
    (lookupFile s.files (taskFilename id) = none →
      App.UpdateTaskDetails s id title desc due prio now =
        (s, .error (.notFound id))) := by
  constructor
  · intro t hget hid hw
    exact appUpdateTaskDetails_getTask s id title desc due prio now t hget hid hw
  · intro hnone
    have hget : s.GetTask id = .error (.notFound id) := by
      simp [FileStorage.GetTask, hnone]
    simp only [App.UpdateTaskDetails, hget]

/-- Witness for C7: details replaced on the stored task, not-found on id 9. -/
theorem updateTaskDetails_replaces_fields_witness :
    ((App.UpdateTaskDetails sampleFS 1 "T" "" 9 3 8).2 =
        .ok { sampleTask with
              title := "T", description := "", dueDate := 9,
              priority := 3, updatedAt := 8 } ∧
      (App.UpdateTaskDetails sampleFS 1 "T" "" 9 3 8).1.GetTask 1 =
        .ok { sampleTask with
              title := "T", description := "", dueDate := 9,
              priority := 3, updatedAt := 8 }) ∧
    App.UpdateTaskDetails sampleFS 9 "T" "" 9 3 8 = (sampleFS, .error (.notFound 9)) :=
  ⟨(updateTaskDetails_replaces_fields sampleFS 1 "T" "" 9 3 8).1 sampleTask
      (by decide) (by decide) (by decide),
   (updateTaskDetails_replaces_fields sampleFS 9 "T" "" 9 3 8).2 (by decide)⟩

/-! ### C8 -/

/-- C8: after DeleteTask(id), GetTask(id) fails with a not-found error (this
holds whether or not the delete itself succeeded); DeleteTask on an id with no
stored record fails with a not-found error and changes nothing. -/
theorem deleteTask_then_get_notFound (s : FileStorage) (id : Int) :
    (s.DeleteTask id).1.GetTask id = .error (.notFound id) ∧
    (lookupFile s.files (taskFilename id) = none →
      s.DeleteTask id = (s, .error (.notFound id))) := by
  constructor
  · unfold FileStorage.DeleteTask FileStorage.GetTask
    cases h : lookupFile s.files (taskFilename id) with
    | none => simp [h]
    | some d => simp [h, lookupFile_removeFile_self]
  · intro h
    unfold FileStorage.DeleteTask
    simp [h]

/-- Witness for C8: delete of the stored task 1 and of the absent task 9. -/
theorem deleteTask_then_get_notFound_witness :
    (sampleFS.DeleteTask 1).1.GetTask 1 = .error (.notFound 1) ∧
    sampleFS.DeleteTask 9 = (sampleFS, .error (.notFound 9)) :=
  ⟨(deleteTask_then_get_notFound sampleFS 1).1,
   (deleteTask_then_get_notFound sampleFS 9).2 (by decide)⟩

/-! ### C10 -/

/-- C10: no service operation un-completes a task: updating the progress of a
completed task to any in-range value below 100 succeeds, stores exactly that
progress and keeps completed = true (so completed = true with progress < 100
is reachable through the public interface), and updating the task's details
also keeps completed = true. -/
theorem completed_never_unset (s : FileStorage) (id : Int) (now : Nat) (t : Task)
    (hget : s.GetTask id = .ok t) (hid : t.id = id) (hc : t.completed = true)
    (hw : taskFilename id ∉ s.writeFail) :
    (∀ p : Int, 0 ≤ p → p < 100 →
      (App.UpdateTaskProgress s id p now).2 = .ok () ∧
      ∃ t', (App.UpdateTaskProgress s id p now).1.GetTask id = .ok t' ∧
        t'.progress = p ∧ t'.progress < 100 ∧ t'.completed = true) ∧
    (∀ (title desc : String) (due : Nat) (prio : Int),
      ∃ t', (App.UpdateTaskDetails s id title desc due prio now).1.GetTask id =
          .ok t' ∧ t'.completed = true) := by
  constructor
  · intro p h0 h100
    have hcond : ¬ (p < 0 ∨ p > 100) := by omega
    have hne : p ≠ 100 := by omega
    rw [App.UpdateTaskProgress, if_neg hcond,
      updateTaskProgress_eq s id p now t hget hid hw]
    refine ⟨rfl, { t with
                   progress := p, updatedAt := now,
                   completed := if p = 100 then true else t.completed }, ?_,
      by simp, by simpa [hne] using h100, by simp [hne, hc]⟩
    simp [FileStorage.GetTask, lookupFile_setFile_self]
  · intro title desc due prio
    have hres := appUpdateTaskDetails_getTask s id title desc due prio now t hget hid hw
    exact ⟨_, hres.2, by simpa using hc⟩

/-- A completed task stored under `task_1.json`. -/
def doneTask : Task :=
  { id := 1, title := "done", description := "", dueDate := 0,
    priority := 1, completed := true, progress := 100, createdAt := 5, updatedAt := 6 }

/-- Store holding the completed `doneTask`. -/
def doneFS : FileStorage :=
  { nextID := 2,
    files := [(counterName, .counterFile 2), (taskFilename 1, .taskFile doneTask)],
    writeFail := [] }

/-- Witness for C10: lowering progress of a completed task to 30 keeps it
completed. -/
theorem completed_never_unset_witness :
    ((App.UpdateTaskProgress doneFS 1 30 7).2 = .ok () ∧
      ∃ t', (App.UpdateTaskProgress doneFS 1 30 7).1.GetTask 1 = .ok t' ∧
        t'.progress = 30 ∧ t'.progress < 100 ∧ t'.completed = true) ∧
    (∃ t', (App.UpdateTaskDetails doneFS 1 "x" "y" 3 2 7).1.GetTask 1 = .ok t' ∧
      t'.completed = true) :=
  ⟨(completed_never_unset doneFS 1 7 doneTask (by decide) (by decide) (by decide)
      (by decide)).1 30 (by decide) (by decide),
   (completed_never_unset doneFS 1 7 doneTask (by decide) (by decide) (by decide)
      (by decide)).2 "x" "y" 3 2⟩

/-! ### C9 -/

/-- C9: on a fresh store (no counter record, no failing writes), Init succeeds,
sets the counter to 1 and persists it; the first create returns id 1 with
progress 0 and completed false; the second create returns id 2; and the
persisted counter record then reads next_id = 3. -/
theorem freshStore_first_ids (s : FileStorage)
    (hfresh : lookupFile s.files counterName = none) (hw : s.writeFail = [])
    (t1 d1 t2 d2 : String) (du1 du2 : Nat) (p1 p2 : Int) (n1 n2 : Nat)
    (h1 : t1 ≠ "") (h2 : t2 ≠ "") :
    (s.Init).2 = .ok () ∧ (s.Init).1.nextID = 1 ∧
    lookupFile (s.Init).1.files counterName = some (.counterFile 1) ∧
    (∃ task1, (App.CreateTask (s.Init).1 t1 d1 du1 p1 n1).2 = .ok task1 ∧
      task1.id = 1 ∧ task1.progress = 0 ∧ task1.completed = false) ∧
    (∃ task2,
      (App.CreateTask (App.CreateTask (s.Init).1 t1 d1 du1 p1 n1).1 t2 d2 du2 p2 n2).2 =
        .ok task2 ∧ task2.id = 2) ∧
    lookupFile
      (App.CreateTask (App.CreateTask (s.Init).1 t1 d1 du1 p1 n1).1 t2 d2 du2 p2 n2).1.files
      counterName = some (.counterFile 3) := by
  have hInit : s.Init =
      ({ nextID := 1, files := setFile s.files counterName (.counterFile 1),
         writeFail := [] }, .ok ()) := by
    simp [FileStorage.Init, FileStorage.saveCounter, hfresh, hw]
  rw [hInit]
  simp only [App.CreateTask, if_neg h1, if_neg h2]
  rw [createTask_eq]
  · simp only []
    rw [createTask_eq]
    · refine ⟨?_, ?_, ?_, ?_, ?_, ?_⟩
      · trivial
      · trivial
      · simp [lookupFile_setFile_self]
      · exact ⟨_, rfl, by simp, by simp, by simp⟩
      · exact ⟨_, rfl, by simp⟩
      · simp [lookupFile_setFile_self, lookupFile_setFile_ne,
          taskFilename_ne_counterName]
    · simp
    · simp
  · simp
  · simp

/-- A fresh store: empty directory, no failing writes. -/
def freshFS : FileStorage := { nextID := 0, files := [], writeFail := [] }

/-- Witness for C9 on a concrete fresh store. -/
theorem freshStore_first_ids_witness :
    (freshFS.Init).2 = .ok () ∧ (freshFS.Init).1.nextID = 1 ∧
    lookupFile (freshFS.Init).1.files counterName = some (.counterFile 1) ∧
    (∃ task1, (App.CreateTask (freshFS.Init).1 "Write report" "" 30 2 1).2 = .ok task1 ∧
      task1.id = 1 ∧ task1.progress = 0 ∧ task1.completed = false) ∧
    (∃ task2,
      (App.CreateTask (App.CreateTask (freshFS.Init).1 "Write report" "" 30 2 1).1
        "b" "" 0 0 2).2 = .ok task2 ∧ task2.id = 2) ∧
    lookupFile
      (App.CreateTask (App.CreateTask (freshFS.Init).1 "Write report" "" 30 2 1).1
        "b" "" 0 0 2).1.files counterName = some (.counterFile 3) :=
  freshStore_first_ids freshFS (by decide) (by decide) "Write report" "" "b" ""
    30 0 2 0 1 2 (by decide) (by decide)

/-! ### C1 -/

/-- The task returned by a create call, if it succeeded. -/
def createdOf : Except Err Task → Option Task
  | .ok task => some task
  | .error _ => none

/-- Run a sequence of CreateTask calls on one store instance, recording for
every call the id it assigned (the value of `nextID` at call time) and, for
the successful calls, the returned task. -/
def createSeq : FileStorage → List (Task × Nat) → FileStorage × List (Int × Option Task)
  | s, [] => (s, [])
  | s, (t, now) :: rest =>
    let r := s.CreateTask t now
    let tail := createSeq r.1 rest
    (tail.1, (s.nextID, createdOf r.2) :: tail.2)

theorem createTask_nextID (s : FileStorage) (t : Task) (now : Nat) :
    (s.CreateTask t now).1.nextID = s.nextID + 1 := by
  unfold FileStorage.CreateTask FileStorage.saveCounter FileStorage.saveTask
  by_cases hcw : counterName ∈ s.writeFail
  · simp [hcw]
  · by_cases htw : taskFilename s.nextID ∈ s.writeFail
    · simp [hcw, htw]
    · simp [hcw, htw]

theorem createTask_ok_fields (s : FileStorage) (t : Task) (now : Nat) (task : Task)
    (hok : (s.CreateTask t now).2 = .ok task) :
    task.id = s.nextID ∧ task.createdAt = now ∧ task.updatedAt = now := by
  unfold FileStorage.CreateTask FileStorage.saveCounter FileStorage.saveTask at hok
  by_cases hcw : counterName ∈ s.writeFail
  · simp [hcw] at hok
  · by_cases htw : taskFilename s.nextID ∈ s.writeFail
    · simp [hcw, htw] at hok
    · simp [hcw, htw] at hok
      rw [← hok]
      exact ⟨rfl, rfl, rfl⟩

theorem createSeq_ids_lb (s : FileStorage) (reqs : List (Task × Nat)) :
    ∀ pr ∈ (createSeq s reqs).2, s.nextID ≤ pr.1 := by
  induction reqs generalizing s with
  | nil => intro pr hpr; simp [createSeq] at hpr
  | cons q rest ih =>
    obtain ⟨t, now⟩ := q
    intro pr hpr
    rw [createSeq] at hpr
    simp only [List.mem_cons] at hpr
    rcases hpr with rfl | hpr
    · simp
    · have h := ih (s.CreateTask t now).1 pr hpr
      rw [createTask_nextID] at h
      omega

/-- C1: along any sequence of CreateTask calls on a single store instance the
assigned ids strictly increase — so each successfully returned task's id is
strictly greater than every id the instance assigned before it — and every
returned task carries the assigned id and has created_at = updated_at. -/
theorem createTask_ids_monotone (s : FileStorage) (reqs : List (Task × Nat)) :
    List.Pairwise (fun a b => a.1 < b.1) (createSeq s reqs).2 ∧
    ∀ pr ∈ (createSeq s reqs).2, ∀ task, pr.2 = some task →
      task.id = pr.1 ∧ task.createdAt = task.updatedAt := by
  induction reqs generalizing s with
  | nil => simp [createSeq]
  | cons q rest ih =>
    obtain ⟨t, now⟩ := q
    obtain ⟨ihp, ihf⟩ := ih (s.CreateTask t now).1
    constructor
    · rw [createSeq]
      refine List.Pairwise.cons ?_ ihp
      intro b hb
      have h := createSeq_ids_lb (s.CreateTask t now).1 rest b hb
      rw [createTask_nextID] at h
      simp only []
      omega
    · intro pr hpr task htask
      rw [createSeq] at hpr
      simp only [List.mem_cons] at hpr
      rcases hpr with rfl | hpr
      · simp only [] at htask
        cases hr : (s.CreateTask t now).2 with
        | error e => rw [hr] at htask; simp [createdOf] at htask
        | ok task0 =>
          rw [hr] at htask
          simp only [createdOf, Option.some.injEq] at htask
          subst htask
          obtain ⟨ha, hb, hc⟩ := createTask_ok_fields s t now _ hr
          exact ⟨ha, hb.trans hc.symm⟩
      · exact ihf pr hpr task htask

/-- Witness for C1: a concrete two-call sequence. -/
theorem createTask_ids_monotone_witness :
    List.Pairwise (fun a b => a.1 < b.1)
      (createSeq sampleFS [(sampleTask, 3), (doneTask, 4)]).2 ∧
    ∀ pr ∈ (createSeq sampleFS [(sampleTask, 3), (doneTask, 4)]).2,
      ∀ task, pr.2 = some task →
        task.id = pr.1 ∧ task.createdAt = task.updatedAt :=
  createTask_ids_monotone sampleFS [(sampleTask, 3), (doneTask, 4)]

/-! ### C4 -/

/-- The listing rule as the specification words it: the records stored under a
name `task_<id>.json` whose id segment parses as an integer and whose content
decodes as a task, sorted by ascending id.  (Stated from the spec's words, for
comparison with `GetAllTasks`.) -/
def getAllTasksSpec (s : FileStorage) : List Task :=
  List.insertionSort (fun a b => a.id ≤ b.id)
    (s.files.filterMap (fun e =>
      if hasPrefixChars taskNamePre e.1.data &&
          hasSuffixChars taskNameSuf e.1.data then
        match parseInt64 (idSegment e.1), e.2 with
        | some _, .taskFile t => some t
        | _, _ => none
      else none))

/-- Task stored under a non-canonical name in the C4 counterexample. -/
def aliasTask : Task :=
  { id := 1, title := "x", description := "", dueDate := 0, priority := 0,
    completed := false, progress := 0, createdAt := 0, updatedAt := 0 }

/-- A directory whose only file is a decodable record under the non-canonical
name `task_01.json` (its id segment parses as 1). -/
def aliasFS : FileStorage :=
  { nextID := 2, files := [("task_01.json", .taskFile aliasTask)], writeFail := [] }

/-- C4 counterexample: on a directory whose only file is a decodable record
named `task_01.json` — a name matching `task_<integer>.json` — the claimed
listing contains the record, but `GetAllTasks` returns the empty list: it
re-reads each parsed id through the canonical file name (`task_1.json` here),
which does not exist. -/
theorem getAllTasks_convention_cex :
    FileStorage.GetAllTasks aliasFS ≠ getAllTasksSpec aliasFS := by decide

/-- A task-record name is canonical when, if its id segment parses as `i`, the
name is exactly `task_<i>.json` — the only names `saveTask` ever produces. -/
def canonicalEntry (n : String) : Bool :=
  if hasPrefixChars taskNamePre n.data && hasSuffixChars taskNameSuf n.data then
    match parseInt64 (idSegment n) with
    | some i => n == taskFilename i
    | none => true
  else true

/-- C4 (amended): for a directory with distinct file names in which every
task-record name is canonical, GetAllTasks returns exactly the decodable
records stored under `task_<id>.json` names, sorted by ascending id —
misnamed entries, the counter file, subdirectories and undecodable records
are silently skipped (GetAllTasks is total in the model, so they never cause
an error), and an empty directory yields the empty list. -/
theorem getAllTasks_canonical_sorted (s : FileStorage)
    (hnd : (s.files.map Prod.fst).Nodup)
    (hcan : ∀ e ∈ s.files, canonicalEntry e.1 = true) :
    s.GetAllTasks = getAllTasksSpec s ∧
    List.Sorted (fun a b => a.id ≤ b.id) s.GetAllTasks ∧
    (s.files = [] → s.GetAllTasks = []) := by
  have hsorted : List.Sorted (fun a b : Task => a.id ≤ b.id) s.GetAllTasks := by
    unfold FileStorage.GetAllTasks
    haveI ht : IsTotal Task (fun a b : Task => a.id ≤ b.id) :=
      ⟨fun a b => Int.le_total a.id b.id⟩
    haveI htr : IsTrans Task (fun a b : Task => a.id ≤ b.id) :=
      ⟨fun _ _ _ hab hbc => Int.le_trans hab hbc⟩
    exact List.sorted_insertionSort _ _
  refine ⟨?_, hsorted, ?_⟩
  · unfold FileStorage.GetAllTasks getAllTasksSpec
    congr 1
    apply List.filterMap_congr
    intro e he
    obtain ⟨n, d⟩ := e
    have hce := hcan (n, d) he
    unfold canonicalEntry at hce
    by_cases hpre : hasPrefixChars taskNamePre n.data = true
    · by_cases hsuf : hasSuffixChars taskNameSuf n.data = true
      · cases hp : parseInt64 (idSegment n) with
        | none =>
          cases d <;> simp [dirEntryTask, hpre, hsuf, hp]
        | some i =>
          simp only [hpre, hsuf, hp, Bool.and_self, if_true, beq_iff_eq] at hce
          have hn : n = taskFilename i := by simpa using hce
          have hlk := lookupFile_eq_of_mem hnd he
          cases d with
          | taskFile t =>
            simp [dirEntryTask, hpre, hsuf, hp, FileStorage.GetTask, ← hn, hlk]
          | counterFile m =>
            simp [dirEntryTask, hpre, hsuf, hp, FileStorage.GetTask, ← hn, hlk]
          | corrupt =>
            simp [dirEntryTask, hpre, hsuf, hp, FileStorage.GetTask, ← hn, hlk]
          | subdir =>
            simp [dirEntryTask, hpre, hsuf, hp]
      · cases d <;> simp [dirEntryTask, hpre, hsuf]
    · cases d <;> simp [dirEntryTask, hpre]
  · intro hnil
    simp [FileStorage.GetAllTasks, hnil]

/-- A directory mixing canonical records, a corrupt record, a foreign file,
the counter file and a subdirectory, stored out of id order. -/
def mixedFS : FileStorage :=
  { nextID := 4,
    files := [(counterName, .counterFile 4),
              (taskFilename 2, .taskFile createdSample),
              ("notes.txt", .corrupt),
              (taskFilename 3, .corrupt),
              ("task_x.json", .corrupt),
              ("sub", .subdir),
              (taskFilename 1, .taskFile sampleTask)],
    writeFail := [] }

/-- Witness for C4 (amended) on a mixed directory. -/
theorem getAllTasks_canonical_sorted_witness :
    mixedFS.GetAllTasks = getAllTasksSpec mixedFS ∧
    List.Sorted (fun a b => a.id ≤ b.id) mixedFS.GetAllTasks ∧
    (mixedFS.files = [] → mixedFS.GetAllTasks = []) :=
  getAllTasks_canonical_sorted mixedFS (by decide) (by decide)

end TaskMaster
